import Mathlib

/-!
Shallow embedding of the resilience/normalization layer of a trading bot:
a Poloniex adapter (`src/unnamed/part_000`) and a Binance adapter
(`src/exchange/wrappers/binance.js`).  JavaScript numbers are modelled as
exact rationals (`ℚ`), timestamps as milliseconds (`ℤ`), error objects as a
message string plus the `notFatal` flag the code sets on them, and the
callback protocol `(err, data)` as explicit sum/option values.  The
`retry` helper from `exchangeUtils` is not part of the sources; where a
claim depends on it, it is modelled from the spec (see `Poloniex.retryRun`).
-/

/-- Boolean test that the list `p` is a prefix of `l` (JS `String.startsWith`
on char lists); used to build the substring test below. -/
def hasPre : List Char → List Char → Bool
  | [], _ => true
  | _ :: _, [] => false
  | a :: as, b :: bs => a == b && hasPre as bs

/-- Boolean test that `p` occurs as a contiguous sublist of `l`. -/
def hasSub (p : List Char) : List Char → Bool
  | [] => p.isEmpty
  | b :: bs => hasPre p (b :: bs) || hasSub p bs

/-- JS `str.includes(pat)`: `pat` occurs as a substring of `s`. -/
def strContains (s pat : String) : Bool :=
  hasSub pat.data s.data

/-- The adapter helper `includes(str, list)`: some element of `list` occurs
as a substring of `str` (`_.some(list, item => str.includes(item))`). -/
def containsAny (s : String) (l : List String) : Bool :=
  l.any (fun p => strContains s p)

/-- Canonical order-status record delivered by `checkOrder` in both
adapters: `{ executed, open, filledAmount? }` (the source field `open` is a
Lean keyword, rendered `isOpen`). -/
structure CheckResult where
  executed : Bool
  isOpen : Bool
  filledAmount : Option ℚ
deriving DecidableEq

instance {ε α : Type} [DecidableEq ε] [DecidableEq α] :
    DecidableEq (Except ε α) := fun x y =>
  match x, y with
  | .error a, .error b =>
    if h : a = b then isTrue (congrArg Except.error h)
    else isFalse (fun hc => h (Except.error.inj hc))
  | .error _, .ok _ => isFalse (fun hc => Except.noConfusion hc)
  | .ok _, .error _ => isFalse (fun hc => Except.noConfusion hc)
  | .ok a, .ok b =>
    if h : a = b then isTrue (congrArg Except.ok h)
    else isFalse (fun hc => h (Except.ok.inj hc))

/-- Whether a delivered callback result is a success (`.ok`). -/
def isOkB {ε α : Type} : Except ε α → Bool
  | .ok _ => true
  | .error _ => false

/-- `x` has at most `p` decimal places: scaled by `10^p` it is an
integer.  This renders "the value's decimal precision does not exceed a
tick of `p` decimal places". -/
def hasPrecAtMost (x : ℚ) (p : ℕ) : Prop :=
  ∃ z : ℤ, x * 10 ^ p = z

namespace Poloniex

/-- The `fn` tag passed to `processResponse` to select the per-operation
override: `'order'`, `'getOrder'` or `'cancelOrder'`. -/
inductive Fn where
  | order
  | getOrder
  | cancelOrder
deriving DecidableEq

/-- A JS `Error` as the adapter uses it: its `message` together with the
`notFatal` flag `processResponse` writes onto it. -/
structure JsError where
  message : String
  notFatal : Bool
deriving DecidableEq

/-- One entry of Poloniex's `returnOpenOrders`/`myOpenOrders` responses:
`orderNumber`, `startingAmount`, the remaining `amount`, and the order's
`date` (milliseconds since epoch). -/
structure OpenOrder where
  orderNumber : String
  startingAmount : ℚ
  amount : ℚ
  date : ℤ
deriving DecidableEq

/-- One entry of Poloniex's `returnOrderTrades` response: `rate`, `amount`
and the trade's `date` (milliseconds since epoch). -/
structure PoloTrade where
  rate : ℚ
  amount : ℚ
  date : ℤ
deriving DecidableEq

/-- The shapes of response bodies the Poloniex adapter inspects:
- `text s`: a string body (HTML error page / CloudFlare challenge);
- `withError e`: an object carrying a truthy `error` field;
- `orders os`: an open-orders array;
- `openOrder o`: a single open-order object (what `findLastTrade` finds);
- `trades ts`: a `returnOrderTrades` array;
- `cancelResp success`: a cancel response object;
- `orderResp n`: a placement response carrying `orderNumber`;
- `balances bs`: a `myBalances` object, each value being `some q` when
  `parseFloat` yields a number and `none` when it is missing or `NaN`;
- `unfilled` / `filled`: the `{unfilled: true}` / `{filled: true}` objects
  the classifier substitutes for remapped errors. -/
inductive PoloData where
  | text (s : String)
  | withError (e : String)
  | orders (os : List OpenOrder)
  | openOrder (o : OpenOrder)
  | trades (ts : List PoloTrade)
  | cancelResp (success : Bool)
  | orderResp (orderNumber : String)
  | balances (bs : List (String × Option ℚ))
  | unfilled
  | filled
deriving DecidableEq

/-- `result.orderNumber` as read by the `buy`/`sell` handlers (an absent
field is `undefined`, i.e. `none`). -/
def PoloData.orderNumberField : PoloData → Option String
  | .orderResp n => some n
  | .openOrder o => some o.orderNumber
  | _ => none

/-- What one invocation of the function returned by `processResponse` does:
either it calls `next(err, data)` (`Step.next`), or — for a placement call
that failed with a connection-timeout-class error — it defers to the
`findLastTrade` reconciliation (`Step.ambiguous` carries the original
error, already tagged with its `notFatal` flag). -/
inductive Step where
  | next (err : Option JsError) (data : Option PoloData)
  | ambiguous (orig : JsError)
deriving DecidableEq

/-- The `recoverableErrors` table of the Poloniex adapter. -/
def recoverableErrors : List String :=
  ["SOCKETTIMEDOUT", "TIMEDOUT", "CONNRESET", "CONNREFUSED", "NOTFOUND",
   "429", "522", "504", "503", "500", "502", "Empty response",
   "Please try again in a few minutes.", "Nonce must be greater than"]

/-- The `unknownResultErrors` table: errors that might mean the API call
succeeded anyway. -/
def unknownResultErrors : List String :=
  ["ETIMEDOUT"]

/-- The CloudFlare message the adapter substitutes for a security-check
page (the source concatenates the two halves with a space). -/
def cloudflareMsg : String :=
  "Your IP has been flagged by CloudFlare. As such Gekko Broker cannot access Poloniex."

/-- Marker of the CloudFlare challenge page. -/
def securityCheckMarker : String :=
  "Please complete the security check to proceed."

/-- The transient-maintenance message. -/
def tryAgainMsg : String :=
  "Please try again in a few minutes."

/-- Marker of a generic HTML error page. -/
def doctypeMarker : String :=
  "<!DOCTYPE html>"

/-- The message `getOrder` remaps to `{unfilled: true}`. -/
def notFoundMsg : String :=
  "Order not found, or you are not the person who placed it."

/-- The message `cancelOrder` remaps to `{filled: true}`. -/
def invalidOrderMsg : String :=
  "Invalid order number, or you are not the person who placed the order."

/-- The error-construction stage of `processResponse` (its leading
`if`/`else if` chain): from the raw `(err, data)` pair it produces the
error message, if any, and the possibly cleared `data`.  The
`tryAgainMsg` branch of the source also sets `notFatal` directly; that is
subsumed by the generic table lookup of `classifyStage`, since
`tryAgainMsg` is itself an entry of `recoverableErrors`. -/
def mkError (err : Option String) (data : Option PoloData) :
    Option String × Option PoloData :=
  match err with
  | some e => (some e, data)
  | none =>
    match data with
    | none => (some "Empty response", none)
    | some d =>
      match d with
      | .withError e => (some e, some d)
      | .text s =>
        if strContains s securityCheckMarker then (some cloudflareMsg, none)
        else if strContains s tryAgainMsg then (some tryAgainMsg, none)
        else if strContains s doctypeMarker then (some s, none)
        else (none, some d)
      | _ => (none, some d)

/-- The classification stage of `processResponse`: given the constructed
error (if any) and the surviving data, set `notFatal` from the
`recoverableErrors` table, apply the per-operation overrides (`getOrder`
"order not found" → `{unfilled}`, `cancelOrder` "invalid order number" →
`{filled}`), and route placement calls whose error matches
`unknownResultErrors` to reconciliation. -/
def classifyStage (fn : Option Fn) : Option String × Option PoloData → Step
  | (none, d) => .next none d
  | (some msg, d) =>
    if fn = some Fn.getOrder ∧ strContains msg notFoundMsg = true then
      .next none (some .unfilled)
    else if fn = some Fn.cancelOrder ∧ strContains msg invalidOrderMsg = true then
      .next none (some .filled)
    else if fn = some Fn.order ∧ containsAny msg unknownResultErrors = true then
      .ambiguous ⟨msg, containsAny msg recoverableErrors⟩
    else
      .next (some ⟨msg, containsAny msg recoverableErrors⟩) d

/-- `Trader.prototype.processResponse` applied to one raw callback
invocation `(err, data)` under the operation tag `fn`. -/
def processResponse (fn : Option Fn) (err : Option String)
    (data : Option PoloData) : Step :=
  classifyStage fn (mkError err data)

/-- `Trader.prototype.findLastTrade`'s handler on a successfully fetched
open-orders list: with `since = some m` it returns the first order whose
`date` lies strictly inside the last `m` minutes (`moment().subtract(m,
'm')` is a strict `<` threshold at `now - m·60000` ms), otherwise the last
order.  An empty list yields `none`. -/
def findLastTrade (since : Option ℕ) (now : ℤ) (os : List OpenOrder) :
    Option OpenOrder :=
  if os.isEmpty then none
  else
    match since with
    | some m => os.find? (fun o => decide ((now - (m : ℤ) * 60000) < o.date))
    | none => os.getLast?

/-- One full placement attempt as `processResponse(next, 'order')` resolves
it: a non-ambiguous outcome is handed to `next` unchanged; an ambiguous
(connection-timeout-class) failure is resolved by `findLastTrade 2` against
the open orders fetched after the delay (`recon`), yielding the found order
as success or the original error as failure — the branch itself never
re-submits the placement. -/
def placeAttempt (err : Option String) (data : Option PoloData) (now : ℤ)
    (recon : List OpenOrder) : Option JsError × Option PoloData :=
  match processResponse (some Fn.order) err data with
  | .next er dd => (er, dd)
  | .ambiguous orig =>
    match findLastTrade (some 2) now recon with
    | some o => (none, some (.openOrder o))
    | none => (some orig, none)

/-- The `handle` of `buy`/`sell`: an error is passed through, a success
delivers `result.orderNumber`. -/
def buyHandle : Option JsError × Option PoloData → Except JsError (Option String)
  | (some e, _) => .error e
  | (none, d) => .ok (d.bind PoloData.orderNumberField)

/-- Modelled from the spec: the retry scheduler (`exchangeUtils.retry`) is
not among the sources.  Per spec §4.2 it returns a success or a fatal error
immediately and re-invokes the attempt on a retryable (`notFatal`) error
until the attempt budget is exhausted, then surfaces the last error.
`retryRun attempt n k` runs with `n` retries left, `k` attempts already
made, and returns the final `(err, data)` pair together with the total
number of attempts (i.e. submissions) performed. -/
def retryRun (attempt : ℕ → Option JsError × Option PoloData) :
    ℕ → ℕ → (Option JsError × Option PoloData) × ℕ
  | 0, k => (attempt k, k + 1)
  | n + 1, k =>
    match attempt k with
    | (some e, d) =>
      if e.notFatal then retryRun attempt n (k + 1) else ((some e, d), k + 1)
    | (none, d) => ((none, d), k + 1)

/-- The `handle` of `checkOrder`: an error is passed through; otherwise the
queried id is looked up among the open orders — found means
`{executed: false, open: true, filledAmount: startingAmount - amount}`,
absent means `{executed: true, open: false}`.  (The source's
`result.completed` guard never fires on this path: the open-orders response
is an array, which has no `completed` field, and the `fn`-less
`processResponse` performs no remap; likewise `_.find` over a non-array
yields no match, hence the executed default.) -/
def checkOrderHandle (id : String) :
    Option JsError → Option PoloData → Except JsError CheckResult
  | some e, _ => .error e
  | none, some (.orders os) =>
    match os.find? (fun o => o.orderNumber == id) with
    | some o => .ok ⟨false, true, some (o.startingAmount - o.amount)⟩
    | none => .ok ⟨true, false, none⟩
  | none, _ => .ok ⟨true, false, none⟩

/-- `checkOrder`'s per-response delivery: `processResponse` (no `fn` tag)
followed by the handler.  The `ambiguous` arm is unreachable here — the
classifier only produces it for `fn = 'order'` — and is mapped to an error
for totality. -/
def checkOrderDeliver (id : String) (err : Option String)
    (data : Option PoloData) : Except JsError CheckResult :=
  match processResponse none err data with
  | .next er dd => checkOrderHandle id er dd
  | .ambiguous orig => .error orig

/-- The `handle` of `cancelOrder`: an error is passed through;
`result.filled` yields `true`; every remaining success — whether
`result.success` holds or not — yields `false` (the source returns `false`
on both of its final branches). -/
def cancelHandle : Option JsError → Option PoloData → Except JsError Bool
  | some e, _ => .error e
  | none, some .filled => .ok true
  | none, _ => .ok false

/-- `cancelOrder`'s per-response delivery: `processResponse` under the
`'cancelOrder'` tag followed by the handler (the `ambiguous` arm is again
unreachable for this tag). -/
def cancelDeliver (err : Option String) (data : Option PoloData) :
    Except JsError Bool :=
  match processResponse (some Fn.cancelOrder) err data with
  | .next er dd => cancelHandle er dd
  | .ambiguous orig => .error orig

/-- Canonical `getOrder` summary `{price, amount, date}`. -/
structure OrderSummary where
  price : ℚ
  amount : ℚ
  date : ℤ
deriving DecidableEq

/-- The body of `getOrder`'s `_.each` loop: running volume-weighted
average price, cumulative amount, and the latest trade's date. -/
def vwapStep : ℚ × ℚ × ℤ → PoloTrade → ℚ × ℚ × ℤ
  | (price, amount, _), t =>
    ((price * amount + t.rate * t.amount) / (t.amount + amount),
     amount + t.amount, t.date)

/-- The `handle` of `getOrder`: an error is passed through; the
`{unfilled: true}` marker yields price 0, amount 0 and the epoch date as a
success; a trade list is folded with `vwapStep` from `(0, 0, epoch)`
(lodash `_.each` over any other shape iterates nothing, leaving the
initial values). -/
def getOrderHandle : Option JsError → Option PoloData → Except JsError OrderSummary
  | some e, _ => .error e
  | none, some .unfilled => .ok ⟨0, 0, 0⟩
  | none, some (.trades ts) =>
    let r := ts.foldl vwapStep ((0 : ℚ), (0 : ℚ), (0 : ℤ))
    .ok ⟨r.1, r.2.1, r.2.2⟩
  | none, _ => .ok ⟨0, 0, 0⟩

/-- `getOrder`'s per-response delivery: `processResponse` under the
`'getOrder'` tag followed by the handler (the `ambiguous` arm is
unreachable for this tag). -/
def getOrderDeliver (err : Option String) (data : Option PoloData) :
    Except JsError OrderSummary :=
  match processResponse (some Fn.getOrder) err data with
  | .next er dd => getOrderHandle er dd
  | .ambiguous orig => .error orig

/-- `parseFloat(data[name])` of a balances object: `none` stands for a
missing key or a `NaN` parse. -/
def lookupBalance (bs : List (String × Option ℚ)) (name : String) : Option ℚ :=
  (bs.lookup name).bind id

/-- The balances object of a `myBalances` response (`data[...]` on any
other shape reads `undefined`, i.e. the empty table). -/
def balancesOf : Option PoloData → List (String × Option ℚ)
  | some (.balances bs) => bs
  | _ => []

/-- The `handle` of `getPortfolio`: an error is passed through; otherwise
the asset and currency balances are parsed, and if either is missing or
`NaN`, *both* amounts are zeroed; the portfolio is always the two-entry
list `[asset, currency]` in that order. -/
def getPortfolioHandle (asset currency : String) :
    Option JsError → Option PoloData → Except JsError (List (String × ℚ))
  | some e, _ => .error e
  | none, d =>
    match lookupBalance (balancesOf d) asset, lookupBalance (balancesOf d) currency with
    | some a, some c => .ok [(asset, a), (currency, c)]
    | _, _ => .ok [(asset, 0), (currency, 0)]

/-- `Trader.prototype.roundAmount`: the Poloniex adapter returns
`+amount`, i.e. the numeric value unchanged. -/
def roundAmount (amount : ℚ) : ℚ := amount

/-- `Trader.prototype.roundPrice`: likewise the identity. -/
def roundPrice (price : ℚ) : ℚ := price

/-- The `minimalOrder.amount` every Poloniex market entry configures
(`0.0001`). -/
def minimalOrderAmount : ℚ := 1 / 10000

end Poloniex

namespace Binance

/-- The two error classes of `exchangeErrors` the Binance wrapper
constructs: `RetryError` and `AbortError`, each carrying the prefixed
message. -/
inductive BinanceError where
  | retryErr (msg : String)
  | abortErr (msg : String)
deriving DecidableEq

/-- The literal alternatives of the `recoverableErrors` regular expression
of the Binance wrapper. -/
def signatures : List String :=
  ["SOCKETTIMEDOUT", "TIMEDOUT", "CONNRESET", "CONNREFUSED", "NOTFOUND",
   "Error -1021", "Response code 429", "Response code 5"]

/-- `error.message.match(recoverableErrors)`: the message contains one of
the regex's literal alternatives. -/
def recoverableMatch (msg : String) : Bool :=
  containsAny msg signatures

/-- `Trader.prototype.processError`: no error passes through; an error
whose message is absent (falsy, i.e. empty) or matches no recoverable
signature becomes an `AbortError`, otherwise a `RetryError`; both carry
`'[binance.js] ' + error.message`. -/
def processError (err : Option String) : Option BinanceError :=
  match err with
  | none => none
  | some m =>
    if m = "" then .some (.abortErr ("[binance.js] " ++ m))
    else if recoverableMatch m then .some (.retryErr ("[binance.js] " ++ m))
    else .some (.abortErr ("[binance.js] " ++ m))

/-- Outcome of one invocation of `checkOrder`'s `check` handler: either the
callback is invoked (with an error or a canonical result), or the handler
throws the unrecognized status. -/
inductive CheckOutcome where
  | callbackRes (err : Option String) (res : Option CheckResult)
  | threw (status : String)
deriving DecidableEq

/-- The order statuses `checkOrder` recognizes. -/
def recognizedStatuses : List String :=
  ["CANCELED", "REJECTED", "EXPIRED", "NEW", "PARTIALLY_FILLED", "FILLED"]

/-- The `check` handler of the Binance `checkOrder`: an error is passed to
the callback; `CANCELED`/`REJECTED`/`EXPIRED` yield not-executed/not-open,
`NEW`/`PARTIALLY_FILLED` yield open with `filledAmount = +data.executedQty`,
`FILLED` yields executed; any other status is thrown (`throw status`). -/
def checkOrderCheck (err : Option String) (status : String)
    (executedQty : ℚ) : CheckOutcome :=
  match err with
  | some e => .callbackRes (some e) none
  | none =>
    if status = "CANCELED" ∨ status = "REJECTED" ∨ status = "EXPIRED" then
      .callbackRes none (some ⟨false, false, none⟩)
    else if status = "NEW" ∨ status = "PARTIALLY_FILLED" then
      .callbackRes none (some ⟨false, true, some executedQty⟩)
    else if status = "FILLED" then
      .callbackRes none (some ⟨true, false, none⟩)
    else
      .threw status

/-- `Trader.prototype.getPrecision`'s loop body, with explicit fuel in
place of the unbounded `while`: the precision is the first `p` with
`Math.round(tickSize * 10^p) / 10^p === tickSize`; dividing both sides by
the non-zero `10^p`, the loop stops at the first `p` for which
`tickSize * 10^p` equals its own rounding (JS `Math.round`, i.e.
`⌊x + 1/2⌋`, is Mathlib's `round`). -/
def getPrecisionGo (t : ℚ) : ℕ → ℕ → ℕ
  | 0, p => p
  | fuel + 1, p =>
    if ((round (t * 10 ^ p) : ℤ) : ℚ) = t * 10 ^ p then p
    else getPrecisionGo t fuel (p + 1)

/-- `Trader.prototype.getPrecision`: the number of decimal places of the
tick size (the `isFinite` guard is vacuous over `ℚ`). -/
def getPrecision (t : ℚ) : ℕ :=
  getPrecisionGo t 100 0

/-- `Trader.prototype.round` (renamed: `round` is taken by Mathlib):
multiply by `10^getPrecision tickSize`, `Math.floor`, divide back.  The
`Number.isInteger` guard of the source always holds, `getPrecision`
returning a natural number. -/
def roundTick (amount tickSize : ℚ) : ℚ :=
  let precision : ℚ := 10 ^ getPrecision tickSize
  ((⌊amount * precision⌋ : ℤ) : ℚ) / precision

/-- `Trader.prototype.roundAmount`: round against the market's
`minimalOrder.amount` tick. -/
def roundAmount (tickAmount amount : ℚ) : ℚ :=
  roundTick amount tickAmount

/-- `Trader.prototype.roundPrice`: round against the market's
`minimalOrder.price` tick. -/
def roundPrice (tickPrice price : ℚ) : ℚ :=
  roundTick price tickPrice

end Binance

open Poloniex

/-- `hasPre` decides the prefix relation on char lists. -/
theorem hasPre_iff : ∀ p l : List Char, hasPre p l = true ↔ p <+: l
  | [], l => by simp [hasPre]
  | _ :: _, [] => by simp [hasPre]
  | a :: as, b :: bs => by
    simp [hasPre, hasPre_iff as bs, List.cons_prefix_cons]

/-- `hasSub` decides the contiguous-sublist relation on char lists. -/
theorem hasSub_iff : ∀ p l : List Char, hasSub p l = true ↔ p <:+: l
  | p, [] => by
    simp [hasSub, List.isEmpty_iff]
  | p, b :: bs => by
    simp [hasSub, hasPre_iff, hasSub_iff p bs, List.infix_cons_iff]

/-- `strContains` decides the substring relation. -/
theorem strContains_iff {s pat : String} :
    strContains s pat = true ↔ pat.data <:+: s.data :=
  hasSub_iff pat.data s.data

/-- Substring containment is transitive. -/
theorem strContains_trans {s p q : String} (h1 : strContains s p = true)
    (h2 : strContains p q = true) : strContains s q = true := by
  rw [strContains_iff] at h1 h2 ⊢
  exact h2.trans h1

/-- `containsAny` holds exactly when some table entry occurs in the
message. -/
theorem containsAny_iff {s : String} {l : List String} :
    containsAny s l = true ↔ ∃ p ∈ l, strContains s p = true := by
  simp [containsAny]

/-- Inversion of the classifier's ambiguous outcome: it only arises on the
placement path, its error message contains the `ETIMEDOUT` signature, and
the error is marked retryable (`notFatal`), since `ETIMEDOUT` contains the
recoverable signature `TIMEDOUT`. -/
theorem Poloniex.ambiguous_inv {fn : Option Fn} {e : Option String}
    {d : Option PoloData} {orig : JsError}
    (h : processResponse fn e d = .ambiguous orig) :
    fn = some Fn.order ∧ strContains orig.message "ETIMEDOUT" = true ∧
      orig.notFatal = true := by
  unfold processResponse at h
  rcases hm : mkError e d with ⟨msg?, d'⟩
  rw [hm] at h
  cases msg? with
  | none => simp [classifyStage] at h
  | some msg =>
    simp only [classifyStage] at h
    split_ifs at h with h1 h2 h3
    obtain ⟨hfn, hun⟩ := h3
    have het : strContains msg "ETIMEDOUT" = true := by
      simpa [containsAny, unknownResultErrors] using hun
    have ht : strContains msg "TIMEDOUT" = true :=
      strContains_trans het (by decide)
    have hnf : containsAny msg recoverableErrors = true :=
      containsAny_iff.mpr ⟨"TIMEDOUT", by decide, ht⟩
    injection h with h
    subst h
    exact ⟨hfn, het, hnf⟩

/-- C3: `cancelOrder` resolves to a single boolean `filled` flag: a
successful cancel response yields `filled = false`; a failing response
whose error message contains "Invalid order number, or you are not the
person who placed the order." yields `filled = true`; every other failing
response is propagated to the caller as the error itself (with its
classified `notFatal` flag), never converted into a `filled = false`
success. -/
theorem C3_cancel (e : Option String) (d : Option PoloData) :
    cancelDeliver none (some (.cancelResp true)) = .ok false
    ∧ (∀ msg d', mkError e d = (some msg, d') →
        strContains msg invalidOrderMsg = true →
        cancelDeliver e d = .ok true)
    ∧ (∀ msg d', mkError e d = (some msg, d') →
        strContains msg invalidOrderMsg = false →
        cancelDeliver e d = .error ⟨msg, containsAny msg recoverableErrors⟩) := by
  refine ⟨rfl, ?_, ?_⟩
  · intro msg d' hm hc
    simp [cancelDeliver, processResponse, hm, classifyStage, hc, cancelHandle]
  · intro msg d' hm hc
    simp [cancelDeliver, processResponse, hm, classifyStage, hc, cancelHandle]

/-- Witness for C3 at concrete inputs: the invalid-order error is remapped
to `filled = true`, and an unrelated error is propagated unchanged. -/
theorem C3_cancel_witness :
    cancelDeliver none (some (.withError invalidOrderMsg)) = .ok true
    ∧ cancelDeliver (some "Permission denied.") none =
        .error ⟨"Permission denied.", false⟩ := by
  constructor
  · exact (C3_cancel none (some (.withError invalidOrderMsg))).2.1
      invalidOrderMsg (some (.withError invalidOrderMsg)) rfl (by decide)
  · have h := (C3_cancel (some "Permission denied.") none).2.2
      "Permission denied." none rfl (by decide)
    exact h.trans (by decide)

/-- C4: on the Poloniex check-order path, an order found among the
reported open orders is reported not executed and open with
`filledAmount = startingAmount - amount` (starting amount minus remaining
amount); an id absent from the open-order set is reported fully executed
and not open.  The third conjunct relates absence from the set to the
`_.find` lookup the code performs. -/
theorem C4_checkOrder (os : List OpenOrder) (id : String) :
    (∀ o, os.find? (fun x => x.orderNumber == id) = some o →
      checkOrderDeliver id none (some (.orders os)) =
        .ok ⟨false, true, some (o.startingAmount - o.amount)⟩)
    ∧ (os.find? (fun x => x.orderNumber == id) = none →
      checkOrderDeliver id none (some (.orders os)) = .ok ⟨true, false, none⟩)
    ∧ (os.find? (fun x => x.orderNumber == id) = none ↔
        ∀ o ∈ os, o.orderNumber ≠ id) := by
  refine ⟨?_, ?_, ?_⟩
  · intro o ho
    simp [checkOrderDeliver, processResponse, mkError, classifyStage,
      checkOrderHandle, ho]
  · intro ho
    simp [checkOrderDeliver, processResponse, mkError, classifyStage,
      checkOrderHandle, ho]
  · rw [List.find?_eq_none]
    simp

/-- Witness for C4 at concrete inputs: the queried id `"42"` is open with
fill `5 - 3 = 2`; the id `"7"` is absent and hence reported executed. -/
theorem C4_checkOrder_witness :
    checkOrderDeliver "42" none
        (some (.orders [⟨"42", 5, 3, 0⟩])) = .ok ⟨false, true, some 2⟩
    ∧ checkOrderDeliver "7" none
        (some (.orders [⟨"42", 5, 3, 0⟩])) = .ok ⟨true, false, none⟩ := by
  constructor
  · have h := (C4_checkOrder [⟨"42", 5, 3, 0⟩] "42").1 ⟨"42", 5, 3, 0⟩ (by decide)
    exact h.trans (by norm_num)
  · exact (C4_checkOrder [⟨"42", 5, 3, 0⟩] "7").2.1 (by decide)

/-- C7: `getOrder` reduces the fill sequence by the running
volume-weighted average — the loop body computes
`price' = (price·amount + rate·fillAmount) / (fillAmount + amount)` and
`amount' = amount + fillAmount`; the fills `[(rate 10, amt 1),
(rate 20, amt 1)]` reduce to price 15 and amount 2; the unfilled marker
and the empty fill list both yield price 0, amount 0 and the epoch date,
delivered as a success rather than an error. -/
theorem C7_vwap :
    (∀ (price amount : ℚ) (dt : ℤ) (t : PoloTrade),
      vwapStep (price, amount, dt) t =
        ((price * amount + t.rate * t.amount) / (t.amount + amount),
         amount + t.amount, t.date))
    ∧ getOrderDeliver none (some (.trades [⟨10, 1, 11⟩, ⟨20, 1, 22⟩])) =
        .ok ⟨15, 2, 22⟩
    ∧ getOrderDeliver none (some .unfilled) = .ok ⟨0, 0, 0⟩
    ∧ getOrderDeliver none (some (.trades [])) = .ok ⟨0, 0, 0⟩ := by
  refine ⟨fun _ _ _ _ => rfl, ?_, rfl, rfl⟩
  simp [getOrderDeliver, processResponse, mkError, classifyStage,
    getOrderHandle, vwapStep, List.foldl]
  norm_num

/-- C2 counterexample: on the check-order path — `checkOrder` processes
its `myOpenOrders` response with no `fn` tag — a response whose error
message is exactly "Order not found, or you are not the person who placed
it." is delivered to the caller as an error, not as an `{unfilled: true}`
success: the remap in `processResponse` is keyed to `fn === 'getOrder'`,
a tag the check-order path never passes. -/
theorem C2_counterexample :
    checkOrderDeliver "1" none (some (.withError notFoundMsg)) =
      .error ⟨notFoundMsg, false⟩
    ∧ isOkB (checkOrderDeliver "1" none (some (.withError notFoundMsg))) =
        false := by
  exact ⟨by decide, by decide⟩

/-- C2 amended: the unfilled remap lives on the get-order path: for every
raw response whose constructed error message contains "Order not found,
or you are not the person who placed it.", `processResponse` under the
`'getOrder'` tag yields the `{unfilled: true}` success — never an error —
and `getOrder` then delivers the price-0/amount-0/epoch summary as a
success. -/
theorem C2_amended (e : Option String) (d : Option PoloData) :
    ∀ msg d', mkError e d = (some msg, d') →
      strContains msg notFoundMsg = true →
      processResponse (some Fn.getOrder) e d = .next none (some .unfilled)
      ∧ getOrderDeliver e d = .ok ⟨0, 0, 0⟩ := by
  intro msg d' hm hc
  constructor
  · simp [processResponse, hm, classifyStage, hc]
  · simp [getOrderDeliver, processResponse, hm, classifyStage, hc,
      getOrderHandle]

/-- Witness for C2's amended claim at a concrete raw response. -/
theorem C2_amended_witness :
    mkError none (some (.withError notFoundMsg)) =
      (some notFoundMsg, some (.withError notFoundMsg))
    ∧ processResponse (some Fn.getOrder) none (some (.withError notFoundMsg)) =
        .next none (some .unfilled)
    ∧ getOrderDeliver none (some (.withError notFoundMsg)) = .ok ⟨0, 0, 0⟩ := by
  refine ⟨rfl, ?_, ?_⟩
  · exact (C2_amended none (some (.withError notFoundMsg)) notFoundMsg
      (some (.withError notFoundMsg)) rfl (by decide)).1
  · exact (C2_amended none (some (.withError notFoundMsg)) notFoundMsg
      (some (.withError notFoundMsg)) rfl (by decide)).2

/-- C6: classification of raw errors against the fixed signature tables.
Poloniex (generic path, where no operation-specific override is in play):
an error whose constructed message contains one of the
`recoverableErrors` signatures is delivered marked `notFatal = true`
(retryable); one containing none of them is delivered marked
`notFatal = false` (fatal).  Binance: a non-empty error message
containing one of the regex's recoverable signatures classifies as a
`RetryError`; one containing none as an `AbortError`. -/
theorem C6_classification :
    (∀ (e : Option String) (d : Option PoloData) msg d',
      mkError e d = (some msg, d') →
      ((∃ s ∈ recoverableErrors, strContains msg s = true) →
        processResponse none e d = .next (some ⟨msg, true⟩) d')
      ∧ ((∀ s ∈ recoverableErrors, strContains msg s = false) →
        processResponse none e d = .next (some ⟨msg, false⟩) d'))
    ∧ (∀ msg : String, msg ≠ "" →
      ((∃ s ∈ Binance.signatures, strContains msg s = true) →
        Binance.processError (some msg) =
          some (.retryErr ("[binance.js] " ++ msg)))
      ∧ ((∀ s ∈ Binance.signatures, strContains msg s = false) →
        Binance.processError (some msg) =
          some (.abortErr ("[binance.js] " ++ msg)))) := by
  constructor
  · intro e d msg d' hm
    constructor
    · rintro ⟨s, hs, hcs⟩
      have hca : containsAny msg recoverableErrors = true :=
        containsAny_iff.mpr ⟨s, hs, hcs⟩
      simp [processResponse, hm, classifyStage, hca]
    · intro hall
      have hca : containsAny msg recoverableErrors = false := by
        cases hc : containsAny msg recoverableErrors with
        | false => rfl
        | true =>
          obtain ⟨s, hs, hcs⟩ := containsAny_iff.mp hc
          rw [hall s hs] at hcs
          exact absurd hcs (by simp)
      simp [processResponse, hm, classifyStage, hca]
  · intro msg hne
    constructor
    · rintro ⟨s, hs, hcs⟩
      have hca : containsAny msg Binance.signatures = true :=
        containsAny_iff.mpr ⟨s, hs, hcs⟩
      simp [Binance.processError, hne, Binance.recoverableMatch, hca]
    · intro hall
      have hca : containsAny msg Binance.signatures = false := by
        cases hc : containsAny msg Binance.signatures with
        | false => rfl
        | true =>
          obtain ⟨s, hs, hcs⟩ := containsAny_iff.mp hc
          rw [hall s hs] at hcs
          exact absurd hcs (by simp)
      simp [Binance.processError, hne, Binance.recoverableMatch, hca]

/-- Witness for C6 at concrete raw errors: a reset is retryable and a bad
key fatal on Poloniex; a clock-drift error is retryable and an invalid
symbol fatal on Binance. -/
theorem C6_classification_witness :
    processResponse none (some "ECONNRESET") none =
      .next (some ⟨"ECONNRESET", true⟩) none
    ∧ processResponse none (some "Invalid API key/secret pair.") none =
        .next (some ⟨"Invalid API key/secret pair.", false⟩) none
    ∧ Binance.processError (some "Error -1021 received.") =
        some (.retryErr "[binance.js] Error -1021 received.")
    ∧ Binance.processError (some "Invalid symbol.") =
        some (.abortErr "[binance.js] Invalid symbol.") := by
  refine ⟨?_, ?_, ?_, ?_⟩
  · exact (C6_classification.1 (some "ECONNRESET") none "ECONNRESET" none
      rfl).1 ⟨"CONNRESET", by decide, by decide⟩
  · exact (C6_classification.1 (some "Invalid API key/secret pair.") none
      "Invalid API key/secret pair." none rfl).2 (by decide)
  · exact ((C6_classification.2 "Error -1021 received." (by decide)).1
      ⟨"Error -1021", by decide, by decide⟩).trans (by decide)
  · exact ((C6_classification.2 "Invalid symbol." (by decide)).2
      (by decide)).trans (by decide)

/-- C9: classification and canonical result construction are
deterministic — identical raw input (operation tag, error and body)
classifies identically, and re-running `checkOrder` or `getOrder`
delivery against an unchanged exchange-side response returns identical
canonical output.  In this embedding the operations are functions of
exactly the raw response (no hidden state), so equal inputs give equal
outputs. -/
theorem C9_deterministic :
    (∀ (fn : Option Fn) e d fn' e' d', fn = fn' → e = e' → d = d' →
      processResponse fn e d = processResponse fn' e' d')
    ∧ (∀ (id : String) e d id' e' d', id = id' → e = e' → d = d' →
      checkOrderDeliver id e d = checkOrderDeliver id' e' d')
    ∧ (∀ (e : Option String) d e' d', e = e' → d = d' →
      getOrderDeliver e d = getOrderDeliver e' d') := by
  refine ⟨?_, ?_, ?_⟩ <;> intros <;> subst_vars <;> rfl

/-- Witness for C9 at concrete inputs. -/
theorem C9_deterministic_witness :
    processResponse (some Fn.getOrder) (some "ETIMEDOUT") none =
      processResponse (some Fn.getOrder) (some "ETIMEDOUT") none
    ∧ checkOrderDeliver "42" none (some (.orders [])) =
        checkOrderDeliver "42" none (some (.orders [])) :=
  ⟨C9_deterministic.1 (some Fn.getOrder) (some "ETIMEDOUT") none
      (some Fn.getOrder) (some "ETIMEDOUT") none rfl rfl rfl,
    C9_deterministic.2.1 "42" none (some (.orders [])) "42" none
      (some (.orders [])) rfl rfl rfl⟩

/-- C10: `getPortfolio` delivers, for every balance response, exactly two
entries — the asset first and the currency second; when both parses
succeed they carry the parsed amounts, and when either parsed balance is
missing or `NaN`, *both* reported amounts are zeroed, not only the
invalid one. -/
theorem C10_portfolio (asset currency : String)
    (bs : List (String × Option ℚ)) :
    (∀ a c, lookupBalance bs asset = some a →
      lookupBalance bs currency = some c →
      getPortfolioHandle asset currency none (some (.balances bs)) =
        .ok [(asset, a), (currency, c)])
    ∧ (lookupBalance bs asset = none ∨ lookupBalance bs currency = none →
      getPortfolioHandle asset currency none (some (.balances bs)) =
        .ok [(asset, 0), (currency, 0)])
    ∧ (∀ d, ∃ a c, getPortfolioHandle asset currency none d =
        .ok [(asset, a), (currency, c)]) := by
  refine ⟨?_, ?_, ?_⟩
  · intro a c ha hc
    simp [getPortfolioHandle, balancesOf, ha, hc]
  · rintro (h | h)
    · simp [getPortfolioHandle, balancesOf, h]
    · cases hA : lookupBalance bs asset with
      | none => simp [getPortfolioHandle, balancesOf, hA]
      | some a => simp [getPortfolioHandle, balancesOf, hA, h]
  · intro d
    cases hA : lookupBalance (balancesOf d) asset with
    | none => exact ⟨0, 0, by simp [getPortfolioHandle, hA]⟩
    | some a =>
      cases hC : lookupBalance (balancesOf d) currency with
      | none => exact ⟨0, 0, by simp [getPortfolioHandle, hA, hC]⟩
      | some c => exact ⟨a, c, by simp [getPortfolioHandle, hA, hC]⟩

/-- Witness for C10 at concrete balance tables: both balances parsed, and
one balance `NaN` zeroing both. -/
theorem C10_portfolio_witness :
    getPortfolioHandle "XMR" "BTC" none
        (some (.balances [("XMR", some 2), ("BTC", some 5)])) =
      .ok [("XMR", 2), ("BTC", 5)]
    ∧ getPortfolioHandle "XMR" "BTC" none
        (some (.balances [("XMR", some 2), ("BTC", none)])) =
      .ok [("XMR", 0), ("BTC", 0)] :=
  ⟨(C10_portfolio "XMR" "BTC" [("XMR", some 2), ("BTC", some 5)]).1 2 5
      (by decide) (by decide),
    (C10_portfolio "XMR" "BTC" [("XMR", some 2), ("BTC", none)]).2.1
      (Or.inr (by decide))⟩

/-- C1 counterexample: a placement attempt that fails with `ETIMEDOUT`
and finds no matching recent order resolves to the original error *still
marked retryable* (`notFatal = true`); under the spec-modelled retry
scheduler (§4.2: retryable errors are re-attempted) even a one-retry
budget therefore performs 2 placement submissions, whereas the claim
demands that the placement is never re-submitted and the caller's
callback receives the original error directly. -/
theorem C1_counterexample :
    placeAttempt (some "ETIMEDOUT") none 0 [] =
      (some ⟨"ETIMEDOUT", true⟩, none)
    ∧ (retryRun (fun _ => placeAttempt (some "ETIMEDOUT") none 0 []) 1 0).2 = 2 :=
  ⟨by decide, by decide⟩

/-- C1 amended: within a single placement attempt the ambiguous
(connection-timeout-class) failure is never resolved by re-submission:
after the delay, the open-orders lookup within the 2-minute recency
window alone decides the outcome — a matching order is returned as the
attempt's success (and `buy`/`sell` deliver its `orderNumber` to the
caller), otherwise the attempt resolves to the original error; but that
error remains marked retryable, so the enclosing retry scheduler may
re-submit the placement before the caller sees the failure. -/
theorem C1_amended (e : Option String) (d : Option PoloData) (now : ℤ)
    (recon : List OpenOrder) (orig : JsError)
    (h : processResponse (some Fn.order) e d = .ambiguous orig) :
    placeAttempt e d now recon =
      (match findLastTrade (some 2) now recon with
       | some o => (none, some (.openOrder o))
       | none => (some orig, none))
    ∧ orig.notFatal = true
    ∧ (∀ o, findLastTrade (some 2) now recon = some o →
        buyHandle (placeAttempt e d now recon) = .ok (some o.orderNumber)) := by
  refine ⟨?_, (Poloniex.ambiguous_inv h).2.2, ?_⟩
  · simp only [placeAttempt, h]
  · intro o ho
    simp only [placeAttempt, h, ho]
    rfl

/-- Witness for C1's amended claim at a concrete timed-out placement whose
reconciliation window contains one order. -/
theorem C1_amended_witness :
    processResponse (some Fn.order) (some "ETIMEDOUT") none =
      .ambiguous ⟨"ETIMEDOUT", true⟩
    ∧ (placeAttempt (some "ETIMEDOUT") none 0 [⟨"7", 1, 1, 0⟩] =
        (match findLastTrade (some 2) 0 [⟨"7", 1, 1, 0⟩] with
         | some o => (none, some (.openOrder o))
         | none => (some ⟨"ETIMEDOUT", true⟩, none))
       ∧ (⟨"ETIMEDOUT", true⟩ : JsError).notFatal = true
       ∧ (∀ o, findLastTrade (some 2) 0 [⟨"7", 1, 1, 0⟩] = some o →
          buyHandle (placeAttempt (some "ETIMEDOUT") none 0 [⟨"7", 1, 1, 0⟩]) =
            .ok (some o.orderNumber))) :=
  ⟨by decide, C1_amended (some "ETIMEDOUT") none 0 [⟨"7", 1, 1, 0⟩]
      ⟨"ETIMEDOUT", true⟩ (by decide)⟩

/-- C5 counterexample: the Binance `checkOrder` handler does *not* invoke
its callback for every reported order status — for the real Binance
status `PENDING_CANCEL` (or any other unrecognized status string) it
reaches the `throw status` branch instead. -/
theorem C5_counterexample :
    Binance.checkOrderCheck none "PENDING_CANCEL" 0 =
      .threw "PENDING_CANCEL"
    ∧ "PENDING_CANCEL" ∉ Binance.recognizedStatuses :=
  ⟨by decide, by decide⟩

/-- C5 amended: the Binance `checkOrder` handler invokes its callback for
every errored response and for each of the six recognized statuses
(`CANCELED`, `REJECTED`, `EXPIRED`, `NEW`, `PARTIALLY_FILLED`, `FILLED`);
on an error-free response with any unrecognized status it throws instead
of calling back. -/
theorem C5_amended (e : Option String) (s : String) (q : ℚ) :
    ((e ≠ none ∨ s ∈ Binance.recognizedStatuses) →
      ∃ er r, Binance.checkOrderCheck e s q = .callbackRes er r)
    ∧ (e = none → s ∉ Binance.recognizedStatuses →
      Binance.checkOrderCheck e s q = .threw s) := by
  constructor
  · rintro (he | hs)
    · cases e with
      | none => exact absurd rfl he
      | some m => exact ⟨some m, none, rfl⟩
    · cases e with
      | some m => exact ⟨some m, none, rfl⟩
      | none =>
        simp only [Binance.recognizedStatuses, List.mem_cons,
          List.not_mem_nil, or_false] at hs
        rcases hs with rfl | rfl | rfl | rfl | rfl | rfl <;>
          exact ⟨none, _, rfl⟩
  · rintro rfl hs
    simp only [Binance.recognizedStatuses, List.mem_cons,
      List.not_mem_nil, or_false] at hs
    push_neg at hs
    obtain ⟨h1, h2, h3, h4, h5, h6⟩ := hs
    simp [Binance.checkOrderCheck, h1, h2, h3, h4, h5, h6]

/-- Witness for C5's amended claim at a recognized status. -/
theorem C5_amended_witness :
    ((none : Option String) ≠ none ∨ "FILLED" ∈ Binance.recognizedStatuses)
    ∧ (∃ er r, Binance.checkOrderCheck none "FILLED" 0 =
        .callbackRes er r) :=
  ⟨Or.inr (by decide), (C5_amended none "FILLED" 0).1 (Or.inr (by decide))⟩

/-- A rational in `[0, 1/2)` rounds to zero (JS `Math.round`). -/
theorem round_eq_zero_of_lt_half {q : ℚ} (h0 : 0 ≤ q) (h1 : q < 1 / 2) :
    round q = 0 := by
  rw [round_eq, Int.floor_eq_zero_iff, Set.mem_Ico]
  constructor
  · linarith
  · linarith

/-- Below one half, a positive rational differs from its rounding, so the
`getPrecision` loop keeps going. -/
theorem round_ne_of_pos_lt_half {q : ℚ} (h0 : 0 < q) (h1 : q < 1 / 2) :
    ¬(((round q : ℤ) : ℚ) = q) := by
  rw [round_eq_zero_of_lt_half h0.le h1]
  push_cast
  exact fun h => absurd h.symm (ne_of_gt h0)

/-- One unfolding step of the `getPrecision` loop. -/
theorem getPrecisionGo_succ (t : ℚ) (fuel p : ℕ) :
    Binance.getPrecisionGo t (fuel + 1) p =
      if ((round (t * 10 ^ p) : ℤ) : ℚ) = t * 10 ^ p then p
      else Binance.getPrecisionGo t fuel (p + 1) := rfl

/-- The Poloniex tick `0.0001` has 4 decimal places under the Binance
`getPrecision` loop. -/
theorem getPrecision_polo_tick :
    Binance.getPrecision Poloniex.minimalOrderAmount = 4 := by
  have h0 : ¬(((round (Poloniex.minimalOrderAmount * 10 ^ 0) : ℤ) : ℚ) =
      Poloniex.minimalOrderAmount * 10 ^ 0) := by
    have e : Poloniex.minimalOrderAmount * 10 ^ 0 = 1 / 10000 := by
      norm_num [Poloniex.minimalOrderAmount]
    rw [e]
    exact round_ne_of_pos_lt_half (by norm_num) (by norm_num)
  have h1 : ¬(((round (Poloniex.minimalOrderAmount * 10 ^ 1) : ℤ) : ℚ) =
      Poloniex.minimalOrderAmount * 10 ^ 1) := by
    have e : Poloniex.minimalOrderAmount * 10 ^ 1 = 1 / 1000 := by
      norm_num [Poloniex.minimalOrderAmount]
    rw [e]
    exact round_ne_of_pos_lt_half (by norm_num) (by norm_num)
  have h2 : ¬(((round (Poloniex.minimalOrderAmount * 10 ^ 2) : ℤ) : ℚ) =
      Poloniex.minimalOrderAmount * 10 ^ 2) := by
    have e : Poloniex.minimalOrderAmount * 10 ^ 2 = 1 / 100 := by
      norm_num [Poloniex.minimalOrderAmount]
    rw [e]
    exact round_ne_of_pos_lt_half (by norm_num) (by norm_num)
  have h3 : ¬(((round (Poloniex.minimalOrderAmount * 10 ^ 3) : ℤ) : ℚ) =
      Poloniex.minimalOrderAmount * 10 ^ 3) := by
    have e : Poloniex.minimalOrderAmount * 10 ^ 3 = 1 / 10 := by
      norm_num [Poloniex.minimalOrderAmount]
    rw [e]
    exact round_ne_of_pos_lt_half (by norm_num) (by norm_num)
  have h4 : (((round (Poloniex.minimalOrderAmount * 10 ^ 4) : ℤ) : ℚ) =
      Poloniex.minimalOrderAmount * 10 ^ 4) := by
    have e : Poloniex.minimalOrderAmount * 10 ^ 4 = 1 := by
      norm_num [Poloniex.minimalOrderAmount]
    rw [e]
    norm_num
  show Binance.getPrecisionGo Poloniex.minimalOrderAmount 100 0 = 4
  rw [show (100 : ℕ) = 99 + 1 by norm_num, getPrecisionGo_succ, if_neg h0,
    show (0 + 1 : ℕ) = 1 by norm_num,
    show (99 : ℕ) = 98 + 1 by norm_num, getPrecisionGo_succ, if_neg h1,
    show (1 + 1 : ℕ) = 2 by norm_num,
    show (98 : ℕ) = 97 + 1 by norm_num, getPrecisionGo_succ, if_neg h2,
    show (2 + 1 : ℕ) = 3 by norm_num,
    show (97 : ℕ) = 96 + 1 by norm_num, getPrecisionGo_succ, if_neg h3,
    show (3 + 1 : ℕ) = 4 by norm_num,
    show (96 : ℕ) = 95 + 1 by norm_num, getPrecisionGo_succ, if_pos h4]

/-- C8 counterexample: the Poloniex adapter's `roundAmount` is the
identity (`+amount`), so on the input `0.00001` it returns a value with 5
decimal places even though every configured Poloniex market has tick
`0.0001` (4 decimal places: `10^4 · tick = 1`): the claimed precision
bound fails for the Poloniex adapter. -/
theorem C8_counterexample :
    Poloniex.roundAmount (1 / 100000) = 1 / 100000
    ∧ Binance.getPrecision Poloniex.minimalOrderAmount = 4
    ∧ ¬ hasPrecAtMost (Poloniex.roundAmount (1 / 100000)) 4 := by
  refine ⟨rfl, getPrecision_polo_tick, ?_⟩
  rintro ⟨z, hz⟩
  rw [Poloniex.roundAmount] at hz
  have h2 : (10 : ℚ) * z = 1 := by
    rw [← hz]
    norm_num
  have h3 : (10 * z : ℤ) = 1 := by exact_mod_cast h2
  omega

/-- C8 amended: the Binance rounding helpers have the claimed behaviour —
`round`-based tick rounding never exceeds its input (floor semantics, for
non-negative inputs) and never produces more decimal places than the
tick's precision; the Poloniex adapter's `roundAmount`/`roundPrice`
return the input unchanged, so for Poloniex only the no-rounding-up half
of the claim holds. -/
theorem C8_amended (x t : ℚ) (_hx : 0 ≤ x) :
    Binance.roundTick x t ≤ x
    ∧ hasPrecAtMost (Binance.roundTick x t) (Binance.getPrecision t)
    ∧ Poloniex.roundAmount x = x
    ∧ Poloniex.roundPrice x = x := by
  have hP : (0 : ℚ) < 10 ^ Binance.getPrecision t := by positivity
  refine ⟨?_, ⟨⌊x * 10 ^ Binance.getPrecision t⌋, ?_⟩, rfl, rfl⟩
  · show ((⌊x * 10 ^ Binance.getPrecision t⌋ : ℤ) : ℚ) /
        10 ^ Binance.getPrecision t ≤ x
    rw [div_le_iff₀ hP]
    exact Int.floor_le _
  · show ((⌊x * 10 ^ Binance.getPrecision t⌋ : ℤ) : ℚ) /
        10 ^ Binance.getPrecision t * 10 ^ Binance.getPrecision t =
        ((⌊x * 10 ^ Binance.getPrecision t⌋ : ℤ) : ℚ)
    exact div_mul_cancel₀ _ (ne_of_gt hP)

/-- Witness for C8's amended claim at a concrete input and tick. -/
theorem C8_amended_witness :
    (0 : ℚ) ≤ 1 / 3
    ∧ (Binance.roundTick (1 / 3) (1 / 100) ≤ 1 / 3
       ∧ hasPrecAtMost (Binance.roundTick (1 / 3) (1 / 100))
           (Binance.getPrecision (1 / 100))
       ∧ Poloniex.roundAmount (1 / 3) = 1 / 3
       ∧ Poloniex.roundPrice (1 / 3) = 1 / 3) :=
  ⟨by norm_num, C8_amended (1 / 3) (1 / 100) (by norm_num)⟩
